import Mathlib

/-!
Verification of the current-state-monitor core
(`moveit_ros/planning/planning_scene_monitor/src/current_state_monitor.cpp`).

Shallow embedding: ROS times are natural numbers (ros::Time is a
non-negative count), double-precision scalar values are rationals,
the joint-time map (`joint_time_`) is an association list from joint
name to timestamp, and the robot state's variable positions are a
function from joint name to the list of that joint's scalar values.
External collaborators (the robot model, the TF buffer lookup and the
pose-to-variable conversion `computeVariablePositions`, the per-joint
`distance` metric) are parameters of the embedded operations, exactly
as the spec declares them out of scope.
-/

namespace CSM

/-- Joint type tag, as used by the callback
(`jm->getType() == moveit::core::JointModel::REVOLUTE`). -/
inductive JointType where
  | revolute
  | prismatic
  | planar
  | floating
  | fixed
  deriving DecidableEq, Repr

/-- The slice of `moveit::core::VariableBounds` the monitor reads: `min_position_` and `max_position_`. -/
structure VariableBounds where
  min_position : ℚ
  max_position : ℚ
  deriving DecidableEq, Repr

/-- The slice of `moveit::core::JointModel` the monitor uses: name,
variable count, type tag, the continuous flag
(`RevoluteJointModel::isContinuous`), and the bounds of the single
variable (`getVariableBounds()[0]`, meaningful when `variableCount = 1`). -/
structure JointModel where
  name : String
  variableCount : Nat
  jtype : JointType
  continuous : Bool
  bounds : VariableBounds
  deriving DecidableEq, Repr

/-- The slice of `moveit::core::RobotModel` the monitor uses:
`getJointModel` searches `joints`; `getActiveJointModels` is
`activeJoints`; `getJointModelGroup`/`getActiveJointModels()` of a group
is `groups`; `getMultiDOFJointModels` is `multiDofJoints`. -/
structure RobotModel where
  joints : List JointModel
  activeJoints : List JointModel
  groups : List (String × List JointModel)
  multiDofJoints : List JointModel

/-- Embeds `robot_model_->getJointModel(name)`: first joint with that name. -/
def findJoint : List JointModel → String → Option JointModel
  | [], _ => none
  | j :: rest, nm => if j.name = nm then some j else findJoint rest nm

/-- Embeds the `robot_model_->getJointModelGroup(name)` result, reduced to the
group's active joints. -/
def findGroup : List (String × List JointModel) → String → Option (List JointModel)
  | [], _ => none
  | (g, js) :: rest, nm => if g = nm then some js else findGroup rest nm

/-- Lookup in the `joint_time_` map (keyed by joint name). -/
def lookupTime : List (String × Nat) → String → Option Nat
  | [], _ => none
  | (k, v) :: rest, nm => if k = nm then some v else lookupTime rest nm

/-- Embeds `joint_time_[jm] = stamp`: on a map already holding an entry for the
key replaces it; otherwise the entry is appended. -/
def insertTime : List (String × Nat) → String → Nat → List (String × Nat)
  | [], nm, t => [(nm, t)]
  | (k, v) :: rest, nm, t =>
    if k = nm then (k, t) :: rest else (k, v) :: insertTime rest nm t

/-- The monitor's mutable state: `robot_state_` variable positions /
velocities / efforts (per joint name, one rational per scalar variable),
the `has*` flags of the robot state, the `joint_time_` map, and the
lifecycle fields `state_monitor_started_`, `monitor_start_time_` and the
joint-state subscriber (`none` when no subscription is held). -/
structure MonitorState where
  positions : String → List ℚ
  velocities : String → List ℚ
  efforts : String → List ℚ
  hasVelocities : Bool
  hasEffort : Bool
  jointTime : List (String × Nat)
  started : Bool
  startTime : Nat
  subscribedTopic : Option String
  tfConnected : Bool

/-- A `sensor_msgs::JointState` message: one header stamp, parallel
name / position / velocity / effort lists. -/
structure JointStateMsg where
  stamp : Nat
  name : List String
  position : List ℚ
  velocity : List ℚ
  effort : List ℚ

/-- The `joint_time_` update of `jointStateCallback` lines 345-356:
`operator[]` default-inserts time zero for an absent key; a strictly
newer stamp only overwrites that joint's entry, otherwise the whole map
is cleared and the single entry recorded. -/
def ledgerUpdate (ledger : List (String × Nat)) (nm : String) (stamp : Nat) :
    List (String × Nat) :=
  let cur := (lookupTime ledger nm).getD 0
  if cur < stamp then insertTime ledger nm stamp
  else [(nm, stamp)]

/-- The net value committed to `robot_state_` for a single-variable
joint whose position changed (`jointStateCallback` lines 358-377): the
raw value is written, continuous revolute joints are left as written,
and a value within `error_` outside a bound is overwritten with that
bound. -/
def commitValue (jm : JointModel) (err : ℚ) (raw : ℚ) : ℚ :=
  if jm.jtype = JointType.revolute ∧ jm.continuous then raw
  else if raw < jm.bounds.min_position ∧ jm.bounds.min_position - err ≤ raw then
    jm.bounds.min_position
  else if jm.bounds.max_position < raw ∧ raw ≤ jm.bounds.max_position + err then
    jm.bounds.max_position
  else raw

/-- The optional velocity / effort mirroring of `jointStateCallback`
lines 379-397 (`copy_dynamics_`); writing velocities or efforts into the
robot state raises the corresponding `has*` flag. -/
def dynamicsStep (copyDynamics : Bool) (msg : JointStateMsg) (i : Nat) (nm : String)
    (acc : MonitorState × Bool) : MonitorState × Bool :=
  if copyDynamics then
    let (st, upd) := acc
    let (st1, upd1) :=
      if msg.name.length = msg.velocity.length ∧
          (st.hasVelocities = false ∨ (st.velocities nm).getD 0 0 ≠ msg.velocity.getD i 0) then
        ({ st with
            velocities := fun x => if x = nm then [msg.velocity.getD i 0] else st.velocities x,
            hasVelocities := true }, true)
      else (st, upd)
    if msg.name.length = msg.effort.length ∧
        (st1.hasEffort = false ∨ (st1.efforts nm).getD 0 0 ≠ msg.effort.getD i 0) then
      ({ st1 with
          efforts := fun x => if x = nm then [msg.effort.getD i 0] else st1.efforts x,
          hasEffort := true }, true)
    else (st1, upd1)
  else acc

/-- One iteration of the `jointStateCallback` loop body for entry
`(i, nm)`: resolve the joint, skip unknown and non-single-variable
joints, update `joint_time_`, commit the (possibly clamped) position if
it differs from the cached one — a changed continuous revolute joint
`continue`s past the dynamics mirroring — then optionally mirror
velocity / effort. -/
def processEntry (model : RobotModel) (copyDynamics : Bool) (err : ℚ)
    (msg : JointStateMsg) (acc : MonitorState × Bool) (entry : Nat × String) :
    MonitorState × Bool :=
  let (i, nm) := entry
  match findJoint model.joints nm with
  | none => acc
  | some jm =>
    if jm.variableCount ≠ 1 then acc
    else
      let (st, upd) := acc
      let st1 := { st with jointTime := ledgerUpdate st.jointTime nm msg.stamp }
      let raw := msg.position.getD i 0
      if (st1.positions nm).getD 0 0 = raw then
        dynamicsStep copyDynamics msg i nm (st1, upd)
      else
        let st2 := { st1 with
          positions := fun x => if x = nm then [commitValue jm err raw] else st1.positions x }
        if jm.jtype = JointType.revolute ∧ jm.continuous then (st2, true)
        else dynamicsStep copyDynamics msg i nm (st2, true)

/-- Embeds `CurrentStateMonitor::jointStateCallback`: reject a batch whose name
and position lists differ in length before touching anything; otherwise
process every entry under the lock, then invoke the callbacks exactly
when some entry produced an update, and notify waiters. Result:
(new state, callbacks invoked, waiters notified). -/
def jointStateCallback (model : RobotModel) (copyDynamics : Bool) (err : ℚ)
    (st : MonitorState) (msg : JointStateMsg) : MonitorState × Bool × Bool :=
  if msg.name.length ≠ msg.position.length then (st, false, false)
  else
    let r := msg.name.enum.foldl (processEntry model copyDynamics err msg) (st, false)
    (r.1, r.2, true)

/-- Embeds `getActiveJointModels()` of the whole model, or of the named group;
an empty group name selects the whole model, an unknown nonempty name
resolves to nothing. -/
def resolveActiveJoints (model : RobotModel) (group : String) :
    Option (List JointModel) :=
  if group = "" then some model.activeJoints
  else findGroup model.groups group

/-- The scan of `getCurrentStateTimeHelper` lines 95-109: starting from
`ros::Time::now()`, return zero as soon as a joint has no `joint_time_`
entry, and fold `min` over the remaining entries, skipping entries whose
stored time is zero (static-transform-sourced). -/
def oldestTime : List JointModel → List (String × Nat) → Nat → Nat
  | [], _, acc => acc
  | j :: rest, ledger, acc =>
    match lookupTime ledger j.name with
    | none => 0
    | some ts => if ts = 0 then oldestTime rest ledger acc
                 else oldestTime rest ledger (min acc ts)

/-- Embeds `CurrentStateMonitor::getCurrentStateTimeHelper`: an unknown group
returns `ros::Time()` (zero); otherwise the scan above over the resolved
active joints, with `now` standing for `ros::Time::now()`. -/
def getCurrentStateTimeHelper (model : RobotModel) (st : MonitorState)
    (group : String) (now : Nat) : Nat :=
  match resolveActiveJoints model group with
  | none => 0
  | some joints => oldestTime joints st.jointTime now

/-- The loop of `haveCompleteStateHelper` lines 244-262: a joint is
missing when it has no `joint_time_` entry or its entry is older than
`oldest_allowed_update_time`; with a missing-joints vector the names are
collected, without one the loop returns false at the first missing joint
(`none` here). -/
def completenessScan (ledger : List (String × Nat)) (oldestAllowed : Nat)
    (collectMissing : Bool) : List JointModel → List String → Option (List String)
  | [], acc => some acc
  | j :: rest, acc =>
    let missing := match lookupTime ledger j.name with
      | none => true
      | some ts => ts < oldestAllowed
    if missing then
      if collectMissing then
        completenessScan ledger oldestAllowed collectMissing rest (acc ++ [j.name])
      else none
    else completenessScan ledger oldestAllowed collectMissing rest acc

/-- Embeds `CurrentStateMonitor::haveCompleteStateHelper`: an unknown group
returns false with every active joint name reported missing (when a
missing-joints vector was supplied); otherwise the scan above, returning
`missing_joints == nullptr || missing_joints->empty()` together with the
collected names. -/
def haveCompleteStateHelper (model : RobotModel) (st : MonitorState)
    (oldestAllowed : Nat) (collectMissing : Bool) (group : String) :
    Bool × List String :=
  match resolveActiveJoints model group with
  | none =>
    (false, if collectMissing then model.activeJoints.map (fun j => j.name) else [])
  | some joints =>
    match completenessScan st.jointTime oldestAllowed collectMissing joints [] with
    | none => (false, [])
    | some missing => (!collectMissing || missing.isEmpty, missing)

/-- The `changes` threshold of `tfCallback` line 455 (`1e-5`). -/
def distanceThreshold : ℚ := 1 / 100000

/-- One iteration of the `tfCallback` loop for a multi-DOF joint.
`tfLookup` abstracts `tf_buffer_->lookupTransform` composed with the
external pose-to-variables conversion (`computeVariablePositions`, with
the joint-origin correction): `none` is a thrown `TransformException`,
`some (stamp, values)` a successful lookup already converted to the
joint's variable values. `dist` abstracts `JointModel::distance`. A
failed lookup skips the joint; a successful one is skipped when its
stamp is positive and not newer than the stored `joint_time_` entry
(`operator[]` default-inserts zero, which never satisfies the skip
condition); otherwise the time and positions are written, `update` is
raised, and `changes` is raised when the joint moved by more than the
threshold. -/
def tfProcessJoint (tfLookup : String → Option (Nat × List ℚ))
    (dist : JointModel → List ℚ → List ℚ → ℚ)
    (acc : MonitorState × Bool × Bool) (j : JointModel) :
    MonitorState × Bool × Bool :=
  match tfLookup j.name with
  | none => acc
  | some (lct, newValues) =>
    let st := acc.1
    let changes := acc.2.2
    let stored := (lookupTime st.jointTime j.name).getD 0
    if lct ≤ stored ∧ 0 < lct then acc
    else
      let changes1 := changes || decide (dist j newValues (st.positions j.name) > distanceThreshold)
      let st1 := { st with
        jointTime := insertTime st.jointTime j.name lct,
        positions := fun x => if x = j.name then newValues else st.positions x }
      (st1, true, changes1)

/-- Embeds `CurrentStateMonitor::tfCallback`: process every multi-DOF joint of
the model in order. Result: (new state, `update` — waiters notified,
`changes` — callbacks invoked with a stub message). -/
def tfCallback (model : RobotModel) (tfLookup : String → Option (Nat × List ℚ))
    (dist : JointModel → List ℚ → List ℚ → ℚ) (st : MonitorState) :
    MonitorState × Bool × Bool :=
  model.multiDofJoints.foldl (tfProcessJoint tfLookup dist) (st, false, false)

/-- Embeds `CurrentStateMonitor::waitForCurrentState` as a loop over a trace of
condition-variable wakes. The monitor state and wall clock at entry are
`(st, now)`; each wake supplies the state and clock observed after
reacquiring the lock and the wall time elapsed since entry. The loop
first checks `getCurrentStateTimeHelper() < t` (over all active joints),
waits when it holds, returns false when the elapsed time after a wake
exceeds the timeout, and otherwise re-checks the predicate. The result
carries the returned Bool and the number of waits performed; `none`
means the wake trace was exhausted while still waiting. -/
def waitForCurrentState (model : RobotModel) (t timeout : Nat) (st : MonitorState)
    (now : Nat) (wakes : List (MonitorState × Nat × Nat)) (waits : Nat) :
    Option (Bool × Nat) :=
  if t ≤ getCurrentStateTimeHelper model st "" now then some (true, waits)
  else
    match wakes with
    | [] => none
    | (st', now', e') :: rest =>
      if timeout < e' then some (false, waits + 1)
      else waitForCurrentState model t timeout st' now' rest (waits + 1)

/-- Embeds `CurrentStateMonitor::startStateMonitor`: a no-op unless stopped and
holding a robot model; otherwise clear `joint_time_`, subscribe to the
topic unless its name is empty (only an error is logged then), connect
the TF listener when a TF buffer is held and the model has multi-DOF
joints, mark started, and record `ros::Time::now()` as the start time. -/
def startStateMonitor (hasModel : Bool) (hasTfMultiDof : Bool) (now : Nat)
    (topic : String) (st : MonitorState) : MonitorState :=
  if st.started = false ∧ hasModel then
    let st1 := { st with jointTime := [] }
    let st2 := if topic = "" then st1 else { st1 with subscribedTopic := some topic }
    let st3 := if hasTfMultiDof then { st2 with tfConnected := true } else st2
    { st3 with started := true, startTime := now }
  else st

/-- Embeds `CurrentStateMonitor::isActive`. -/
def isActive (st : MonitorState) : Bool :=
  st.started

/-- Embeds `CurrentStateMonitor::getMonitoredTopic`: the topic of the subscriber, or
the empty string when no subscription is held. -/
def getMonitoredTopic (st : MonitorState) : String :=
  match st.subscribedTopic with
  | some topic => topic
  | none => ""

/-- An ingestion event: a joint-report batch, or a TF change
notification with the lookup outcomes it observes. -/
inductive IngestEvent where
  | report (msg : JointStateMsg)
  | tf (tfLookup : String → Option (Nat × List ℚ))

/-- Apply one ingestion event to the monitor state. -/
def applyEvent (model : RobotModel) (copyDynamics : Bool) (err : ℚ)
    (dist : JointModel → List ℚ → List ℚ → ℚ)
    (st : MonitorState) (ev : IngestEvent) : MonitorState :=
  match ev with
  | IngestEvent.report msg => (jointStateCallback model copyDynamics err st msg).1
  | IngestEvent.tf tfLookup => (tfCallback model tfLookup dist st).1

/-- Apply a sequence of ingestion events. -/
def runEvents (model : RobotModel) (copyDynamics : Bool) (err : ℚ)
    (dist : JointModel → List ℚ → List ℚ → ℚ)
    (st : MonitorState) (evs : List IngestEvent) : MonitorState :=
  evs.foldl (applyEvent model copyDynamics err dist) st

/-- The bounds invariant actually maintained by ingestion for bounded
single-variable joints: each stored scalar lies within the joint's
bounds, or strictly more than `err` outside them (a raw out-of-range
report stored as-is). -/
def InBoundsInv (model : RobotModel) (err : ℚ) (st : MonitorState) : Prop :=
  ∀ nm jm, findJoint model.joints nm = some jm → jm.variableCount = 1 →
    ¬(jm.jtype = JointType.revolute ∧ jm.continuous) →
    ∀ v ∈ st.positions nm,
      (jm.bounds.min_position ≤ v ∧ v ≤ jm.bounds.max_position) ∨
        v < jm.bounds.min_position - err ∨ jm.bounds.max_position + err < v

/-- Well-formedness of the external robot model, as the monitor relies
on it: bounds are ordered, and multi-DOF joints never resolve to a
single-variable joint (the report path and the pose path touch disjoint
joints). -/
def WFModel (model : RobotModel) : Prop :=
  (∀ nm jm, findJoint model.joints nm = some jm →
    jm.bounds.min_position ≤ jm.bounds.max_position) ∧
  (∀ j ∈ model.multiDofJoints, ∀ jm, findJoint model.joints j.name = some jm →
    jm.variableCount ≠ 1)

/-! Concrete fixtures used by witnesses and counterexamples. -/

/-- A bounded (non-continuous) revolute joint with bounds `[0, 1]`. -/
def jointA : JointModel :=
  { name := "A", variableCount := 1, jtype := JointType.revolute,
    continuous := false, bounds := { min_position := 0, max_position := 1 } }

/-- A continuous revolute joint. -/
def jointB : JointModel :=
  { name := "B", variableCount := 1, jtype := JointType.revolute,
    continuous := true, bounds := { min_position := -1, max_position := 1 } }

/-- A floating multi-DOF joint (7 state-space variables). -/
def jointF : JointModel :=
  { name := "F", variableCount := 7, jtype := JointType.floating,
    continuous := false, bounds := { min_position := 0, max_position := 0 } }

/-- A small robot model: active joints `A`, `B`, multi-DOF joint `F`,
one group `arm` containing `A`. -/
def modelW : RobotModel :=
  { joints := [jointA, jointB, jointF], activeJoints := [jointA, jointB],
    groups := [("arm", [jointA])], multiDofJoints := [jointF] }

/-- The clamp tolerance used in concrete runs (stands for `error_`,
initialised to `std::numeric_limits<double>::epsilon()`). -/
def epsW : ℚ := 1 / 1000000

/-- A quiescent monitor state: all variables at zero, empty ledger,
monitor stopped. -/
def baseState : MonitorState :=
  { positions := fun _ => [0], velocities := fun _ => [0], efforts := fun _ => [0],
    hasVelocities := false, hasEffort := false, jointTime := [],
    started := false, startTime := 0, subscribedTopic := none, tfConnected := false }

/-- A zero distance metric for concrete TF runs. -/
def distZero : JointModel → List ℚ → List ℚ → ℚ :=
  fun _ _ _ => 0

/-- A ledger holding entries for `A` (time 5) and `B` (time 4). -/
def stAB : MonitorState :=
  { baseState with jointTime := [("A", 5), ("B", 4)] }

/-- A batch reporting `A` at one half, stamped 3 (older than `A`'s
stored time 5). -/
def msgA3 : JointStateMsg :=
  { stamp := 3, name := ["A"], position := [1/2], velocity := [], effort := [] }

/-- A batch reporting `A` at one half, stamped 7 (newer than `A`'s
stored time 5). -/
def msgA7 : JointStateMsg :=
  { stamp := 7, name := ["A"], position := [1/2], velocity := [], effort := [] }

/-! Helper lemmas about the ledger map and the callback pieces. -/

lemma lookupTime_insertTime_self (l : List (String × Nat)) (nm : String) (t : Nat) :
    lookupTime (insertTime l nm t) nm = some t := by
  induction l with
  | nil => simp [insertTime, lookupTime]
  | cons p rest ih =>
    obtain ⟨k, v⟩ := p
    by_cases hk : k = nm
    · simp [insertTime, lookupTime, hk]
    · simp [insertTime, lookupTime, hk, ih]

lemma lookupTime_insertTime_ne (l : List (String × Nat)) (nm : String) (t : Nat)
    (o : String) (ho : o ≠ nm) :
    lookupTime (insertTime l nm t) o = lookupTime l o := by
  induction l with
  | nil => simp [insertTime, lookupTime, Ne.symm ho]
  | cons p rest ih =>
    obtain ⟨k, v⟩ := p
    by_cases hk : k = nm
    · subst hk
      simp [insertTime, lookupTime, Ne.symm ho]
    · by_cases hko : k = o
      · subst hko
        simp [insertTime, lookupTime, hk]
      · simp [insertTime, lookupTime, hk, hko, ih]

lemma dynamicsStep_jointTime (c : Bool) (msg : JointStateMsg) (i : Nat) (nm : String)
    (acc : MonitorState × Bool) :
    (dynamicsStep c msg i nm acc).1.jointTime = acc.1.jointTime := by
  obtain ⟨st, u⟩ := acc
  simp only [dynamicsStep]
  split
  · split <;> split <;> rfl
  · rfl

lemma dynamicsStep_positions (c : Bool) (msg : JointStateMsg) (i : Nat) (nm : String)
    (acc : MonitorState × Bool) :
    (dynamicsStep c msg i nm acc).1.positions = acc.1.positions := by
  obtain ⟨st, u⟩ := acc
  simp only [dynamicsStep]
  split
  · split <;> split <;> rfl
  · rfl

lemma processEntry_jointTime (model : RobotModel) (c : Bool) (err : ℚ)
    (msg : JointStateMsg) (st : MonitorState) (u : Bool) (i : Nat) (nm : String)
    (jm : JointModel) (hj : findJoint model.joints nm = some jm)
    (hc : jm.variableCount = 1) :
    (processEntry model c err msg (st, u) (i, nm)).1.jointTime =
      ledgerUpdate st.jointTime nm msg.stamp := by
  simp only [processEntry, hj]
  rw [if_neg (by simp [hc])]
  split
  · rw [dynamicsStep_jointTime]
  · split
    · rfl
    · rw [dynamicsStep_jointTime]

/-- Claim C1: in joint-report ingestion, a batch entry whose timestamp
is not strictly greater than the joint's currently stored ledger
timestamp clears the entire ledger and records this single entry's
timestamp as the joint's new (and only) entry; an entry with a strictly
greater timestamp only advances that joint's entry, leaving every other
joint's entry unchanged. -/
theorem claim1_discontinuity_resets_ledger (model : RobotModel) (c : Bool) (err : ℚ)
    (msg : JointStateMsg) (st : MonitorState) (u : Bool) (i : Nat) (nm : String)
    (jm : JointModel) (T : Nat) (hj : findJoint model.joints nm = some jm)
    (hc : jm.variableCount = 1) (hT : lookupTime st.jointTime nm = some T) :
    (msg.stamp ≤ T →
      (processEntry model c err msg (st, u) (i, nm)).1.jointTime = [(nm, msg.stamp)]) ∧
    (T < msg.stamp →
      lookupTime (processEntry model c err msg (st, u) (i, nm)).1.jointTime nm =
          some msg.stamp ∧
      ∀ o, o ≠ nm →
        lookupTime (processEntry model c err msg (st, u) (i, nm)).1.jointTime o =
          lookupTime st.jointTime o) := by
  rw [processEntry_jointTime model c err msg st u i nm jm hj hc]
  unfold ledgerUpdate
  rw [hT]
  constructor
  · intro hle
    have : ¬ (T < msg.stamp) := not_lt.mpr hle
    simp [Option.getD, this]
  · intro hlt
    simp only [Option.getD, hlt, if_pos]
    exact ⟨lookupTime_insertTime_self _ _ _,
      fun o ho => lookupTime_insertTime_ne _ _ _ o ho⟩

/-- Witness for C1 on the concrete model: with `A` stored at time 5, a
stamp-3 entry collapses the ledger to `[(A, 3)]`, and a stamp-7 entry
advances `A` to 7 while leaving `B`'s entry alone. -/
theorem claim1_witness :
    (processEntry modelW false epsW msgA3 (stAB, false) (0, "A")).1.jointTime =
        [("A", 3)] ∧
    lookupTime (processEntry modelW false epsW msgA7 (stAB, false) (0, "A")).1.jointTime
        "B" = some 4 := by
  refine ⟨(claim1_discontinuity_resets_ledger modelW false epsW msgA3 stAB false 0 "A"
      jointA 5 (by decide) (by decide) (by decide)).1 (by decide), ?_⟩
  have h := (claim1_discontinuity_resets_ledger modelW false epsW msgA7 stAB false 0 "A"
      jointA 5 (by decide) (by decide) (by decide)).2 (by decide)
  exact (h.2 "B" (by decide)).trans (by decide)

/-- A ledger holding only an entry for `A` at time 5. -/
def stA5 : MonitorState :=
  { baseState with jointTime := [("A", 5)] }

/-- A batch reporting `B` at 3, stamped 0, while `B` has no ledger
entry. -/
def msgB0 : JointStateMsg :=
  { stamp := 0, name := ["B"], position := [3], velocity := [], effort := [] }

/-- A batch reporting `B` at 3, stamped 2. -/
def msgB2 : JointStateMsg :=
  { stamp := 2, name := ["B"], position := [3], velocity := [], effort := [] }

/-- Counterexample to claim C2: with `A` stored at time 5 and `B` absent
from the ledger, ingesting a stamp-0 batch for `B` erases `A`'s entry
(the whole ledger is reset, `operator[]` having default-inserted time
zero for `B`, which a zero stamp does not strictly exceed), and the
completeness query over all active joints then fails. -/
theorem claim2_counterexample :
    lookupTime (jointStateCallback modelW false epsW stA5 msgB0).1.jointTime "A"
        = none ∧
    (jointStateCallback modelW false epsW stA5 msgB0).1.jointTime = [("B", 0)] ∧
    (haveCompleteStateHelper modelW (jointStateCallback modelW false epsW stA5 msgB0).1
        0 false "").1 = false := by
  refine ⟨by decide, by decide, by decide⟩

/-- Claim C2 (amended): a joint absent from the ledger is compared
against a default timestamp of zero, so a stamp-0 batch entry for it is
NOT accepted as newer than "never" — it triggers the discontinuity
reset, clearing the entire ledger and recording zero as that joint's
only entry; a batch entry with any nonzero stamp is accepted as newer
and only sets that joint's entry, leaving the others unchanged. -/
theorem claim2_amended (model : RobotModel) (c : Bool) (err : ℚ) (msg : JointStateMsg)
    (st : MonitorState) (u : Bool) (i : Nat) (nm : String) (jm : JointModel)
    (hj : findJoint model.joints nm = some jm) (hc : jm.variableCount = 1)
    (habs : lookupTime st.jointTime nm = none) :
    (msg.stamp = 0 →
      (processEntry model c err msg (st, u) (i, nm)).1.jointTime = [(nm, 0)]) ∧
    (0 < msg.stamp →
      lookupTime (processEntry model c err msg (st, u) (i, nm)).1.jointTime nm =
          some msg.stamp ∧
      ∀ o, o ≠ nm →
        lookupTime (processEntry model c err msg (st, u) (i, nm)).1.jointTime o =
          lookupTime st.jointTime o) := by
  rw [processEntry_jointTime model c err msg st u i nm jm hj hc]
  unfold ledgerUpdate
  rw [habs]
  constructor
  · intro h0
    simp [h0]
  · intro hpos
    simp only [Option.getD_none, hpos, if_pos]
    exact ⟨lookupTime_insertTime_self _ _ _,
      fun o ho => lookupTime_insertTime_ne _ _ _ o ho⟩

/-- Witness for the amended C2: ingesting `B` at stamp 0 with `B` absent
collapses the concrete ledger to `[(B, 0)]`; ingesting `B` at stamp 2
sets `B` to 2 and leaves `A`'s entry at 5. -/
theorem claim2_amended_witness :
    (processEntry modelW false epsW msgB0 (stA5, false) (0, "B")).1.jointTime =
        [("B", 0)] ∧
    lookupTime (processEntry modelW false epsW msgB2 (stA5, false) (0, "B")).1.jointTime
        "B" = some 2 ∧
    lookupTime (processEntry modelW false epsW msgB2 (stA5, false) (0, "B")).1.jointTime
        "A" = some 5 := by
  refine ⟨(claim2_amended modelW false epsW msgB0 stA5 false 0 "B" jointB
      (by decide) (by decide) (by decide)).1 (by decide), ?_, ?_⟩
  · exact ((claim2_amended modelW false epsW msgB2 stA5 false 0 "B" jointB
      (by decide) (by decide) (by decide)).2 (by decide)).1
  · exact (((claim2_amended modelW false epsW msgB2 stA5 false 0 "B" jointB
      (by decide) (by decide) (by decide)).2 (by decide)).2 "A" (by decide)).trans
      (by decide)

/-- Claim C7: a batch whose name and position lists differ in length is
rejected wholesale — the state (configuration, ledger, flags) is
returned unchanged, no callback is invoked, and no waiter is
notified. -/
theorem claim7_mismatched_batch_rejected (model : RobotModel) (c : Bool) (err : ℚ)
    (st : MonitorState) (msg : JointStateMsg)
    (h : msg.name.length ≠ msg.position.length) :
    jointStateCallback model c err st msg = (st, false, false) := by
  simp [jointStateCallback, h]

/-- Witness for C7: a one-name, zero-position batch leaves the concrete
state untouched, with no callback and no notification. -/
theorem claim7_witness :
    jointStateCallback modelW false epsW baseState
      { stamp := 5, name := ["A"], position := [], velocity := [], effort := [] } =
      (baseState, false, false) :=
  claim7_mismatched_batch_rejected modelW false epsW baseState _ (by decide)

lemma processEntry_positions_changed (model : RobotModel) (c : Bool) (err : ℚ)
    (msg : JointStateMsg) (st : MonitorState) (u : Bool) (i : Nat) (nm : String)
    (jm : JointModel) (hj : findJoint model.joints nm = some jm)
    (hc : jm.variableCount = 1)
    (hdiff : (st.positions nm).getD 0 0 ≠ msg.position.getD i 0) :
    (processEntry model c err msg (st, u) (i, nm)).1.positions nm =
      [commitValue jm err (msg.position.getD i 0)] := by
  simp only [processEntry, hj]
  rw [if_neg (by simp [hc])]
  split
  · rename_i heq
    exact absurd heq hdiff
  · split
    · simp
    · rw [dynamicsStep_positions]
      simp

lemma commitValue_clamp_min (jm : JointModel) (err raw : ℚ)
    (hnc : ¬(jm.jtype = JointType.revolute ∧ jm.continuous = true))
    (h1 : raw < jm.bounds.min_position) (h2 : jm.bounds.min_position - err ≤ raw) :
    commitValue jm err raw = jm.bounds.min_position := by
  unfold commitValue
  rw [if_neg hnc, if_pos ⟨h1, h2⟩]

lemma commitValue_clamp_max (jm : JointModel) (err raw : ℚ)
    (hnc : ¬(jm.jtype = JointType.revolute ∧ jm.continuous = true))
    (hb : jm.bounds.min_position ≤ jm.bounds.max_position)
    (h1 : jm.bounds.max_position < raw) (h2 : raw ≤ jm.bounds.max_position + err) :
    commitValue jm err raw = jm.bounds.max_position := by
  unfold commitValue
  rw [if_neg hnc, if_neg (by rintro ⟨hlt, -⟩; exact absurd (hb.trans_lt h1) (not_lt.mpr hlt.le)),
    if_pos ⟨h1, h2⟩]

lemma commitValue_asis (jm : JointModel) (err raw : ℚ) (herr : 0 ≤ err)
    (hb : jm.bounds.min_position ≤ jm.bounds.max_position)
    (h : (jm.bounds.min_position ≤ raw ∧ raw ≤ jm.bounds.max_position) ∨
      raw < jm.bounds.min_position - err ∨ jm.bounds.max_position + err < raw) :
    commitValue jm err raw = raw := by
  unfold commitValue
  split
  · rfl
  · rcases h with ⟨hl, hr⟩ | hlo | hhi
    · rw [if_neg (by rintro ⟨hlt, -⟩; exact absurd hl (not_le.mpr hlt)),
        if_neg (by rintro ⟨hgt, -⟩; exact absurd hr (not_le.mpr hgt))]
    · rw [if_neg (by rintro ⟨-, hge⟩; exact absurd hlo (not_lt.mpr hge)),
        if_neg (by rintro ⟨hgt, -⟩; exact absurd hgt (not_lt.mpr
          (((hlo.trans_le (by linarith)).le.trans hb)))) ]
    · rw [if_neg (by rintro ⟨hlt, -⟩; exact absurd hlt (not_lt.mpr
          (hb.trans (by linarith)))),
        if_neg (by rintro ⟨-, hle⟩; exact absurd hhi (not_lt.mpr hle))]

lemma commitValue_continuous (jm : JointModel) (err raw : ℚ)
    (hcont : jm.jtype = JointType.revolute ∧ jm.continuous = true) :
    commitValue jm err raw = raw := by
  unfold commitValue
  rw [if_pos hcont]

/-- Claim C4: for an ingested entry of a single-variable joint whose raw
value differs from the cached value, a non-continuous joint commits the
near bound when the raw value is within `error_` outside it, and the raw
value itself otherwise (in-bounds values and values out of bounds by
more than `error_` alike); a continuous revolute joint always commits
the raw value unmodified. -/
theorem claim4_near_bound_clamping (model : RobotModel) (c : Bool) (err : ℚ)
    (msg : JointStateMsg) (st : MonitorState) (u : Bool) (i : Nat) (nm : String)
    (jm : JointModel) (hj : findJoint model.joints nm = some jm)
    (hc : jm.variableCount = 1) (herr : 0 ≤ err)
    (hb : jm.bounds.min_position ≤ jm.bounds.max_position)
    (hdiff : (st.positions nm).getD 0 0 ≠ msg.position.getD i 0) :
    (¬(jm.jtype = JointType.revolute ∧ jm.continuous = true) →
      (msg.position.getD i 0 < jm.bounds.min_position →
          jm.bounds.min_position - err ≤ msg.position.getD i 0 →
        (processEntry model c err msg (st, u) (i, nm)).1.positions nm =
          [jm.bounds.min_position]) ∧
      (jm.bounds.max_position < msg.position.getD i 0 →
          msg.position.getD i 0 ≤ jm.bounds.max_position + err →
        (processEntry model c err msg (st, u) (i, nm)).1.positions nm =
          [jm.bounds.max_position]) ∧
      ((jm.bounds.min_position ≤ msg.position.getD i 0 ∧
          msg.position.getD i 0 ≤ jm.bounds.max_position) ∨
          msg.position.getD i 0 < jm.bounds.min_position - err ∨
          jm.bounds.max_position + err < msg.position.getD i 0 →
        (processEntry model c err msg (st, u) (i, nm)).1.positions nm =
          [msg.position.getD i 0])) ∧
    (jm.jtype = JointType.revolute ∧ jm.continuous = true →
      (processEntry model c err msg (st, u) (i, nm)).1.positions nm =
        [msg.position.getD i 0]) := by
  have hp := processEntry_positions_changed model c err msg st u i nm jm hj hc hdiff
  constructor
  · intro hnc
    refine ⟨fun h1 h2 => ?_, fun h1 h2 => ?_, fun h => ?_⟩
    · rw [hp, commitValue_clamp_min jm err _ hnc h1 h2]
    · rw [hp, commitValue_clamp_max jm err _ hnc hb h1 h2]
    · rw [hp, commitValue_asis jm err _ herr hb h]
  · intro hcont
    rw [hp, commitValue_continuous jm err _ hcont]

/-- A batch reporting `A` just above its upper bound by half the
tolerance (raw value `1 + epsW / 2`), stamped 1. -/
def msgAeps : JointStateMsg :=
  { stamp := 1, name := ["A"], position := [1 + 1/2000000], velocity := [],
    effort := [] }

/-- A batch reporting `A` far out of bounds (raw value 5), stamped 1. -/
def msgAbig : JointStateMsg :=
  { stamp := 1, name := ["A"], position := [5], velocity := [], effort := [] }

/-- A batch reporting the continuous joint `B` far outside its nominal
range (raw value 3), stamped 1. -/
def msgBbig : JointStateMsg :=
  { stamp := 1, name := ["B"], position := [3], velocity := [], effort := [] }

/-- Witness for C4 on the concrete model: a value half a tolerance above
`A`'s bound commits exactly the bound 1; a value of 5 is committed
as-is; the continuous joint `B` commits 3 unmodified. -/
theorem claim4_witness :
    (processEntry modelW false epsW msgAeps (baseState, false) (0, "A")).1.positions "A"
        = [1] ∧
    (processEntry modelW false epsW msgAbig (baseState, false) (0, "A")).1.positions "A"
        = [5] ∧
    (processEntry modelW false epsW msgBbig (baseState, false) (0, "B")).1.positions "B"
        = [3] := by
  refine ⟨?_, ?_, ?_⟩
  · exact (((claim4_near_bound_clamping modelW false epsW msgAeps baseState false 0 "A"
      jointA (by decide) (by decide) (by norm_num [epsW]) (by norm_num [jointA])
      (by norm_num [baseState, msgAeps])).1
      (by decide)).2.1 (by norm_num [jointA, msgAeps])
      (by norm_num [jointA, msgAeps, epsW])).trans (by norm_num [jointA])
  · exact (((claim4_near_bound_clamping modelW false epsW msgAbig baseState false 0 "A"
      jointA (by decide) (by decide) (by norm_num [epsW]) (by norm_num [jointA])
      (by norm_num [baseState, msgAbig])).1
      (by decide)).2.2 (Or.inr (Or.inr (by norm_num [jointA, msgAbig, epsW])))).trans
      (by norm_num [msgAbig])
  · exact ((claim4_near_bound_clamping modelW false epsW msgBbig baseState false 0 "B"
      jointB (by decide) (by decide) (by norm_num [epsW]) (by norm_num [jointB])
      (by norm_num [baseState, msgBbig])).2
      (by decide)).trans (by norm_num [msgBbig])

lemma commitValue_cases (jm : JointModel) (err raw : ℚ)
    (hb : jm.bounds.min_position ≤ jm.bounds.max_position)
    (hnc : ¬(jm.jtype = JointType.revolute ∧ jm.continuous = true)) :
    (jm.bounds.min_position ≤ commitValue jm err raw ∧
      commitValue jm err raw ≤ jm.bounds.max_position) ∨
      commitValue jm err raw < jm.bounds.min_position - err ∨
      jm.bounds.max_position + err < commitValue jm err raw := by
  unfold commitValue
  rw [if_neg hnc]
  split
  · exact Or.inl ⟨le_refl _, hb⟩
  · split
    · exact Or.inl ⟨hb, le_refl _⟩
    · rename_i h1 h2
      by_cases hlt : raw < jm.bounds.min_position
      · refine Or.inr (Or.inl ?_)
        by_contra hge
        exact h1 ⟨hlt, not_lt.mp hge⟩
      · by_cases hgt : jm.bounds.max_position < raw
        · refine Or.inr (Or.inr ?_)
          by_contra hle
          exact h2 ⟨hgt, not_lt.mp hle⟩
        · exact Or.inl ⟨not_lt.mp hlt, not_lt.mp hgt⟩

lemma InBoundsInv_congr (model : RobotModel) (err : ℚ) {st st' : MonitorState}
    (h : st'.positions = st.positions) (hinv : InBoundsInv model err st) :
    InBoundsInv model err st' := by
  intro nm jm hj hc hnc v hv
  rw [h] at hv
  exact hinv nm jm hj hc hnc v hv

lemma processEntry_inv (model : RobotModel) (c : Bool) (err : ℚ) (msg : JointStateMsg)
    (acc : MonitorState × Bool) (e : Nat × String)
    (hb : ∀ nm jm, findJoint model.joints nm = some jm →
      jm.bounds.min_position ≤ jm.bounds.max_position)
    (hinv : InBoundsInv model err acc.1) :
    InBoundsInv model err (processEntry model c err msg acc e).1 := by
  obtain ⟨st, u⟩ := acc
  obtain ⟨i, nm⟩ := e
  cases hj : findJoint model.joints nm with
  | none =>
    simp only [processEntry, hj]
    exact hinv
  | some jm =>
    simp only [processEntry, hj]
    split
    · exact hinv
    · split
      · exact InBoundsInv_congr model err (dynamicsStep_positions c msg i nm _) hinv
      · have hw : InBoundsInv model err { st with
            jointTime := ledgerUpdate st.jointTime nm msg.stamp,
            positions := fun x =>
              if x = nm then [commitValue jm err (msg.position.getD i 0)]
              else st.positions x } := by
          intro nm' jm' hj' hc' hnc' v hv
          by_cases hnm : nm' = nm
          · subst hnm
            rw [hj] at hj'
            obtain rfl : jm = jm' := Option.some.inj hj'
            simp only [eq_self_iff_true, if_true, List.mem_singleton] at hv
            subst hv
            exact commitValue_cases jm err _ (hb nm' jm hj) hnc'
          · simp only [if_neg hnm] at hv
            exact hinv nm' jm' hj' hc' hnc' v hv
        split
        · exact hw
        · exact InBoundsInv_congr model err (dynamicsStep_positions c msg i nm _) hw

lemma foldl_processEntry_inv (model : RobotModel) (c : Bool) (err : ℚ)
    (msg : JointStateMsg) (l : List (Nat × String))
    (hb : ∀ nm jm, findJoint model.joints nm = some jm →
      jm.bounds.min_position ≤ jm.bounds.max_position) :
    ∀ acc : MonitorState × Bool, InBoundsInv model err acc.1 →
      InBoundsInv model err (l.foldl (processEntry model c err msg) acc).1 := by
  induction l with
  | nil => exact fun acc hinv => hinv
  | cons e rest ih =>
    intro acc hinv
    exact ih _ (processEntry_inv model c err msg acc e hb hinv)

lemma jointStateCallback_inv (model : RobotModel) (c : Bool) (err : ℚ)
    (st : MonitorState) (msg : JointStateMsg)
    (hb : ∀ nm jm, findJoint model.joints nm = some jm →
      jm.bounds.min_position ≤ jm.bounds.max_position)
    (hinv : InBoundsInv model err st) :
    InBoundsInv model err (jointStateCallback model c err st msg).1 := by
  unfold jointStateCallback
  split
  · exact hinv
  · exact foldl_processEntry_inv model c err msg _ hb (st, false) hinv

lemma tfProcessJoint_inv (model : RobotModel) (err : ℚ)
    (tfLookup : String → Option (Nat × List ℚ))
    (dist : JointModel → List ℚ → List ℚ → ℚ)
    (acc : MonitorState × Bool × Bool) (j : JointModel)
    (hnot1 : ∀ jm, findJoint model.joints j.name = some jm → jm.variableCount ≠ 1)
    (hinv : InBoundsInv model err acc.1) :
    InBoundsInv model err (tfProcessJoint tfLookup dist acc j).1 := by
  cases hl : tfLookup j.name with
  | none =>
    simp only [tfProcessJoint, hl]
    exact hinv
  | some p =>
    obtain ⟨lct, vals⟩ := p
    simp only [tfProcessJoint, hl]
    split
    · exact hinv
    · intro nm' jm' hj' hc' hnc' v hv
      by_cases hnm : nm' = j.name
      · subst hnm
        exact absurd hc' (hnot1 jm' hj')
      · simp only [if_neg hnm] at hv
        exact hinv nm' jm' hj' hc' hnc' v hv

lemma foldl_tfProcessJoint_inv (model : RobotModel) (err : ℚ)
    (tfLookup : String → Option (Nat × List ℚ))
    (dist : JointModel → List ℚ → List ℚ → ℚ) (l : List JointModel) :
    (∀ j ∈ l, ∀ jm, findJoint model.joints j.name = some jm → jm.variableCount ≠ 1) →
    ∀ acc : MonitorState × Bool × Bool, InBoundsInv model err acc.1 →
      InBoundsInv model err (l.foldl (tfProcessJoint tfLookup dist) acc).1 := by
  induction l with
  | nil => exact fun _ acc hinv => hinv
  | cons j rest ih =>
    intro hl acc hinv
    exact ih (fun j' hj' => hl j' (List.mem_cons_of_mem _ hj')) _
      (tfProcessJoint_inv model err tfLookup dist acc j
        (hl j (List.mem_cons_self _ _)) hinv)

lemma applyEvent_inv (model : RobotModel) (c : Bool) (err : ℚ)
    (dist : JointModel → List ℚ → List ℚ → ℚ) (st : MonitorState) (ev : IngestEvent)
    (hWF : WFModel model) (hinv : InBoundsInv model err st) :
    InBoundsInv model err (applyEvent model c err dist st ev) := by
  cases ev with
  | report msg => exact jointStateCallback_inv model c err st msg hWF.1 hinv
  | tf tfLookup =>
    exact foldl_tfProcessJoint_inv model err tfLookup dist model.multiDofJoints
      hWF.2 (st, false, false) hinv

/-- Counterexample to claim C3: from the quiescent state, one report
batch putting the bounded joint `A` (bounds `[0, 1]`) at 5 — more than
the tolerance outside — leaves 5 stored in the configuration, outside
the joint's bounds, although `A` is not continuous. -/
theorem claim3_counterexample :
    ¬ (∀ v ∈ (runEvents modelW false epsW distZero baseState
          [IngestEvent.report msgAbig]).positions "A",
        jointA.bounds.min_position ≤ v ∧ v ≤ jointA.bounds.max_position) := by
  intro hall
  have hcv : commitValue jointA epsW 5 = 5 :=
    commitValue_asis jointA epsW 5 (by norm_num [epsW]) (by norm_num [jointA])
      (Or.inr (Or.inr (by norm_num [jointA, epsW])))
  have hpe : (processEntry modelW false epsW msgAbig (baseState, false)
      (0, "A")).1.positions "A" = [5] := by
    rw [processEntry_positions_changed modelW false epsW msgAbig baseState false 0 "A"
      jointA (by decide) (by decide) (by norm_num [baseState, msgAbig])]
    simp [msgAbig, hcv]
  have hrun : (runEvents modelW false epsW distZero baseState
      [IngestEvent.report msgAbig]).positions "A" = [5] := by
    show (jointStateCallback modelW false epsW baseState msgAbig).1.positions "A" = [5]
    unfold jointStateCallback
    rw [if_neg (by decide)]
    show (processEntry modelW false epsW msgAbig (baseState, false)
      (0, "A")).1.positions "A" = [5]
    exact hpe
  have h5 := hall 5 (by rw [hrun]; exact List.mem_singleton_self 5)
  norm_num [jointA] at h5

/-- Claim C3 (amended): at every point reachable by ingestion events
from a state satisfying the bounds invariant, every stored scalar of a
non-continuous single-variable joint either lies within the joint's
`[min, max]` bounds or lies strictly more than the tolerance outside
them (a raw report out of bounds by more than the tolerance is stored
as-is); continuous/wrapping joints are never bound-clamped. -/
theorem claim3_bounds_invariant (model : RobotModel) (c : Bool) (err : ℚ)
    (dist : JointModel → List ℚ → List ℚ → ℚ) (st0 : MonitorState)
    (evs : List IngestEvent) (hWF : WFModel model)
    (hinv : InBoundsInv model err st0) :
    InBoundsInv model err (runEvents model c err dist st0 evs) := by
  unfold runEvents
  induction evs generalizing st0 with
  | nil => exact hinv
  | cons e rest ih =>
    exact ih _ (applyEvent_inv model c err dist st0 e hWF hinv)

lemma findJoint_modelW (nm : String) (jm : JointModel)
    (h : findJoint modelW.joints nm = some jm) :
    jm = jointA ∨ jm = jointB ∨ jm = jointF := by
  simp only [modelW, findJoint] at h
  split at h
  · exact Or.inl (Option.some.inj h).symm
  · split at h
    · exact Or.inr (Or.inl (Option.some.inj h).symm)
    · split at h
      · exact Or.inr (Or.inr (Option.some.inj h).symm)
      · exact absurd h (by simp)

lemma wf_modelW : WFModel modelW := by
  constructor
  · intro nm jm h
    rcases findJoint_modelW nm jm h with rfl | rfl | rfl
    · norm_num [jointA]
    · norm_num [jointB]
    · norm_num [jointF]
  · intro j hj jm hjm
    have hj' : j = jointF := by simpa [modelW] using hj
    subst hj'
    have hF : findJoint modelW.joints jointF.name = some jointF := by decide
    rw [hF] at hjm
    obtain rfl : jointF = jm := Option.some.inj hjm
    decide

lemma inBounds_baseState : InBoundsInv modelW epsW baseState := by
  intro nm jm h hc hnc v hv
  have hv' : v = 0 := by simpa [baseState] using hv
  subst hv'
  rcases findJoint_modelW nm jm h with rfl | rfl | rfl
  · exact Or.inl ⟨by norm_num [jointA], by norm_num [jointA]⟩
  · exact absurd ⟨rfl, rfl⟩ hnc
  · exact absurd hc (by decide)

/-- Witness for the amended C3: the concrete model is well-formed, the
quiescent state satisfies the invariant, and so does the state reached
by ingesting a near-bound report for `A` and a report for `B`. -/
theorem claim3_witness :
    WFModel modelW ∧ InBoundsInv modelW epsW baseState ∧
    InBoundsInv modelW epsW (runEvents modelW false epsW distZero baseState
      [IngestEvent.report msgAeps, IngestEvent.report msgB2]) :=
  ⟨wf_modelW, inBounds_baseState,
    claim3_bounds_invariant modelW false epsW distZero baseState
      [IngestEvent.report msgAeps, IngestEvent.report msgB2] wf_modelW
      inBounds_baseState⟩

/-- A ledger holding entries for `A` and `B`, both at time 11. -/
def stAB11 : MonitorState :=
  { baseState with jointTime := [("A", 11), ("B", 11)] }

/-- Counterexample to claim C5: with both active joints stored at
time 11 but the clock (`ros::Time::now()`) at 10, the query returns 10 —
the clock value — not the minimum 11 over the subset's ledger entries:
the scan's accumulator starts at `ros::Time::now()`, so entries in the
future of the clock are clamped by it. -/
theorem claim5_counterexample :
    stAB11.jointTime = [("A", 11), ("B", 11)] ∧
    getCurrentStateTimeHelper modelW stAB11 "" 10 = 10 ∧
    getCurrentStateTimeHelper modelW stAB11 "" 10 ≠ 11 := by
  refine ⟨rfl, by decide, by decide⟩

lemma oldestTime_of_missing (joints : List JointModel) (ledger : List (String × Nat))
    (h : ∃ j ∈ joints, lookupTime ledger j.name = none) :
    ∀ acc, oldestTime joints ledger acc = 0 := by
  induction joints with
  | nil => simp at h
  | cons j rest ih =>
    intro acc
    obtain ⟨j', hj', hnone⟩ := h
    cases hl : lookupTime ledger j.name with
    | none => simp [oldestTime, hl]
    | some ts =>
      have hmem : j' ∈ rest := by
        rcases List.mem_cons.mp hj' with rfl | hmem
        · rw [hl] at hnone
          cases hnone
        · exact hmem
      simp only [oldestTime, hl]
      split
      · exact ih ⟨j', hmem, hnone⟩ acc
      · exact ih ⟨j', hmem, hnone⟩ (min acc ts)

lemma oldestTime_all_some (joints : List JointModel) (ledger : List (String × Nat))
    (h : ∀ j ∈ joints, (lookupTime ledger j.name).isSome) :
    ∀ acc, oldestTime joints ledger acc =
      (joints.filterMap (fun j =>
        match lookupTime ledger j.name with
        | none => none
        | some ts => if ts = 0 then none else some ts)).foldl min acc := by
  induction joints with
  | nil => intro acc; rfl
  | cons j rest ih =>
    intro acc
    have hrest : ∀ j' ∈ rest, (lookupTime ledger j'.name).isSome :=
      fun j' hj' => h j' (List.mem_cons_of_mem _ hj')
    cases hl : lookupTime ledger j.name with
    | none =>
      have := h j (List.mem_cons_self _ _)
      rw [hl] at this
      simp at this
    | some ts =>
      by_cases h0 : ts = 0
      · subst h0
        simp only [oldestTime, hl, List.filterMap_cons, if_pos rfl]
        exact ih hrest acc
      · simp only [oldestTime, hl, List.filterMap_cons, if_neg h0, List.foldl_cons]
        exact ih hrest (min acc ts)

/-- Claim C5 (amended): over a resolved joint subset, the
oldest-update-time query returns the zero timestamp as soon as any joint
of the subset has no ledger entry; when every joint has an entry, it
returns the minimum of the query-time clock value and the subset's
nonzero ledger entries (entries stored as zero — static-transform
sourced — are excluded; if every entry is zero the clock value itself is
returned). -/
theorem claim5_oldest_update_time (model : RobotModel) (st : MonitorState)
    (group : String) (joints : List JointModel) (now : Nat)
    (hres : resolveActiveJoints model group = some joints) :
    ((∃ j ∈ joints, lookupTime st.jointTime j.name = none) →
      getCurrentStateTimeHelper model st group now = 0) ∧
    ((∀ j ∈ joints, (lookupTime st.jointTime j.name).isSome) →
      getCurrentStateTimeHelper model st group now =
        (joints.filterMap (fun j =>
          match lookupTime st.jointTime j.name with
          | none => none
          | some ts => if ts = 0 then none else some ts)).foldl min now) := by
  unfold getCurrentStateTimeHelper
  rw [hres]
  exact ⟨fun h => oldestTime_of_missing joints st.jointTime h now,
    fun h => oldestTime_all_some joints st.jointTime h now⟩

/-- Witness for the amended C5: `B` missing short-circuits the concrete
query to 0; with both entries at 11 and the clock at 10 the query
returns 10. -/
theorem claim5_witness :
    getCurrentStateTimeHelper modelW stA5 "" 99 = 0 ∧
    getCurrentStateTimeHelper modelW stAB11 "" 10 = 10 := by
  constructor
  · exact (claim5_oldest_update_time modelW stA5 "" modelW.activeJoints 99
      (by decide)).1 ⟨jointB, by decide, by decide⟩
  · exact ((claim5_oldest_update_time modelW stAB11 "" modelW.activeJoints 10
      (by decide)).2 (by decide)).trans (by decide)

/-- Claim C6: in pose-derived ingestion, a successful lookup with pose
timestamp exactly zero is always accepted (ledger entry set to zero,
positions written, waiter-notification flagged) regardless of the stored
timestamp; a nonzero timestamp not strictly newer than the stored entry
skips the joint leaving the whole accumulated state unchanged (no ledger
reset); a lookup failure for a joint makes the fold process the
remaining joints exactly as if that joint were not there. -/
theorem claim6_pose_ingestion :
    (∀ (tfLookup : String → Option (Nat × List ℚ))
        (dist : JointModel → List ℚ → List ℚ → ℚ)
        (acc : MonitorState × Bool × Bool) (j : JointModel) (vals : List ℚ),
      tfLookup j.name = some (0, vals) →
      lookupTime (tfProcessJoint tfLookup dist acc j).1.jointTime j.name = some 0 ∧
      (tfProcessJoint tfLookup dist acc j).1.positions j.name = vals ∧
      (tfProcessJoint tfLookup dist acc j).2.1 = true) ∧
    (∀ (tfLookup : String → Option (Nat × List ℚ))
        (dist : JointModel → List ℚ → List ℚ → ℚ)
        (acc : MonitorState × Bool × Bool) (j : JointModel) (lct : Nat)
        (vals : List ℚ) (stored : Nat),
      tfLookup j.name = some (lct, vals) → 0 < lct →
      lookupTime acc.1.jointTime j.name = some stored → lct ≤ stored →
      tfProcessJoint tfLookup dist acc j = acc) ∧
    (∀ (tfLookup : String → Option (Nat × List ℚ))
        (dist : JointModel → List ℚ → List ℚ → ℚ)
        (acc : MonitorState × Bool × Bool) (j : JointModel) (rest : List JointModel),
      tfLookup j.name = none →
      List.foldl (tfProcessJoint tfLookup dist) acc (j :: rest) =
        List.foldl (tfProcessJoint tfLookup dist) acc rest) := by
  refine ⟨?_, ?_, ?_⟩
  · intro tfLookup dist acc j vals hl
    simp only [tfProcessJoint, hl]
    rw [if_neg (by rintro ⟨-, h⟩; exact absurd h (lt_irrefl 0))]
    exact ⟨lookupTime_insertTime_self _ _ _, by simp, rfl⟩
  · intro tfLookup dist acc j lct vals stored hl hpos hstored hle
    simp only [tfProcessJoint, hl]
    have hg : lct ≤ (lookupTime acc.1.jointTime j.name).getD 0 := by
      rw [hstored]
      exact hle
    rw [if_pos ⟨hg, hpos⟩]
  · intro tfLookup dist acc j rest hl
    have hskip : tfProcessJoint tfLookup dist acc j = acc := by
      simp only [tfProcessJoint, hl]
    simp only [List.foldl_cons, hskip]

/-- A lookup returning a static (timestamp-zero) pose for `F`. -/
def lkZeroF : String → Option (Nat × List ℚ) :=
  fun nm => if nm = "F" then some (0, [2]) else none

/-- A lookup returning a stale pose (timestamp 3) for every joint. -/
def lkStale : String → Option (Nat × List ℚ) :=
  fun _ => some (3, [9])

/-- A lookup that always fails. -/
def lkFail : String → Option (Nat × List ℚ) :=
  fun _ => none

/-- A ledger holding an entry for `F` at time 5. -/
def stF5 : MonitorState :=
  { baseState with jointTime := [("F", 5)] }

/-- Witness for C6: a zero-stamp pose for `F` is accepted over the
stored time 5; a stamp-3 pose is skipped leaving the state untouched; a
failed lookup makes the singleton fold equal the empty fold. -/
theorem claim6_witness :
    lookupTime (tfProcessJoint lkZeroF distZero (stF5, false, false) jointF).1.jointTime
        "F" = some 0 ∧
    (tfProcessJoint lkZeroF distZero (stF5, false, false) jointF).1.positions "F" = [2] ∧
    (tfProcessJoint lkZeroF distZero (stF5, false, false) jointF).2.1 = true ∧
    tfProcessJoint lkStale distZero (stF5, false, false) jointF = (stF5, false, false) ∧
    List.foldl (tfProcessJoint lkFail distZero) (stF5, false, false) [jointF] =
      List.foldl (tfProcessJoint lkFail distZero) (stF5, false, false) [] := by
  obtain ⟨h1, h2, h3⟩ :=
    claim6_pose_ingestion.1 lkZeroF distZero (stF5, false, false) jointF [2] (by decide)
  exact ⟨h1, h2, h3,
    claim6_pose_ingestion.2.1 lkStale distZero (stF5, false, false) jointF 3 [9] 5
      (by decide) (by decide) (by decide) (by decide),
    claim6_pose_ingestion.2.2 lkFail distZero (stF5, false, false) jointF [] (by decide)⟩

/-- Claim C8: a nonempty group name that resolves to no known group
makes the completeness query return false with the missing-joint list
(when one is collected) set to all active joint names of the model, and
makes the oldest-update-time query return the zero timestamp; both are
pure reads of the state. -/
theorem claim8_unknown_group (model : RobotModel) (st : MonitorState) (now : Nat)
    (group : String) (oldestAllowed : Nat) (hne : group ≠ "")
    (hnone : findGroup model.groups group = none) :
    (∀ collectMissing,
      haveCompleteStateHelper model st oldestAllowed collectMissing group =
        (false, if collectMissing then model.activeJoints.map (fun j => j.name)
          else [])) ∧
    getCurrentStateTimeHelper model st group now = 0 := by
  have hres : resolveActiveJoints model group = none := by
    simp [resolveActiveJoints, hne, hnone]
  constructor
  · intro collectMissing
    simp [haveCompleteStateHelper, hres]
  · simp [getCurrentStateTimeHelper, hres]

/-- Witness for C8: the unknown group name `nope` on the concrete model
yields `(false, [A, B])` from the completeness query and 0 from the time
query. -/
theorem claim8_witness :
    haveCompleteStateHelper modelW baseState 0 true "nope" = (false, ["A", "B"]) ∧
    getCurrentStateTimeHelper modelW baseState "nope" 7 = 0 := by
  have h := claim8_unknown_group modelW baseState 7 "nope" 0 (by decide) (by decide)
  exact ⟨(h.1 true).trans (by decide), h.2⟩

/-- Claim C9: `waitForCurrentState` returns true with zero waits when
the oldest update time over all active joints already reaches `t` on
entry; after a wake within the timeout at which the predicate holds it
returns true; after a wake past the timeout with the predicate still
false it returns false; and a spurious wake (predicate still false,
timeout not exceeded) just re-enters the loop with one more wait
recorded. -/
theorem claim9_wait_semantics :
    (∀ (model : RobotModel) (t timeout : Nat) (st : MonitorState) (now : Nat)
        (wakes : List (MonitorState × Nat × Nat)),
      t ≤ getCurrentStateTimeHelper model st "" now →
      waitForCurrentState model t timeout st now wakes 0 = some (true, 0)) ∧
    (∀ (model : RobotModel) (t timeout : Nat) (st : MonitorState) (now : Nat)
        (st' : MonitorState) (now' e' : Nat) (rest : List (MonitorState × Nat × Nat))
        (waits : Nat),
      getCurrentStateTimeHelper model st "" now < t → e' ≤ timeout →
      t ≤ getCurrentStateTimeHelper model st' "" now' →
      waitForCurrentState model t timeout st now ((st', now', e') :: rest) waits =
        some (true, waits + 1)) ∧
    (∀ (model : RobotModel) (t timeout : Nat) (st : MonitorState) (now : Nat)
        (st' : MonitorState) (now' e' : Nat) (rest : List (MonitorState × Nat × Nat))
        (waits : Nat),
      getCurrentStateTimeHelper model st "" now < t → timeout < e' →
      getCurrentStateTimeHelper model st' "" now' < t →
      waitForCurrentState model t timeout st now ((st', now', e') :: rest) waits =
        some (false, waits + 1)) ∧
    (∀ (model : RobotModel) (t timeout : Nat) (st : MonitorState) (now : Nat)
        (st' : MonitorState) (now' e' : Nat) (rest : List (MonitorState × Nat × Nat))
        (waits : Nat),
      getCurrentStateTimeHelper model st "" now < t → e' ≤ timeout →
      getCurrentStateTimeHelper model st' "" now' < t →
      waitForCurrentState model t timeout st now ((st', now', e') :: rest) waits =
        waitForCurrentState model t timeout st' now' rest (waits + 1)) := by
  refine ⟨?_, ?_, ?_, ?_⟩
  · intro model t timeout st now wakes h
    rw [waitForCurrentState.eq_def, if_pos h]
  · intro model t timeout st now st' now' e' rest waits h1 h2 h3
    simp only [waitForCurrentState]
    rw [if_neg (not_le.mpr h1), if_neg (not_lt.mpr h2)]
    rw [waitForCurrentState.eq_def, if_pos h3]
  · intro model t timeout st now st' now' e' rest waits h1 h2 h3
    simp only [waitForCurrentState]
    rw [if_neg (not_le.mpr h1), if_pos h2]
  · intro model t timeout st now st' now' e' rest waits h1 h2 h3
    simp only [waitForCurrentState]
    rw [if_neg (not_le.mpr h1), if_neg (not_lt.mpr h2)]

/-- Witness for C9 on the concrete model: predicate already satisfied →
immediate true with no wait; satisfied at the first in-time wake → true
after one wait; still unsatisfied past the timeout → false after one
wait; spurious in-time wake → the loop continues on the trace tail. -/
theorem claim9_witness :
    waitForCurrentState modelW 5 100 stAB11 20 [] 0 = some (true, 0) ∧
    waitForCurrentState modelW 11 100 stA5 0 [(stAB11, 20, 50)] 0 =
      some (true, 1) ∧
    waitForCurrentState modelW 11 100 stA5 0 [(stA5, 20, 200)] 0 =
      some (false, 1) ∧
    waitForCurrentState modelW 11 100 stA5 0 [(stA5, 20, 50)] 0 =
      waitForCurrentState modelW 11 100 stA5 20 [] 1 := by
  refine ⟨?_, ?_, ?_, ?_⟩
  · exact claim9_wait_semantics.1 modelW 5 100 stAB11 20 [] (by decide)
  · exact claim9_wait_semantics.2.1 modelW 11 100 stA5 0 stAB11 20 50 [] 0
      (by decide) (by decide) (by decide)
  · exact claim9_wait_semantics.2.2.1 modelW 11 100 stA5 0 stA5 20 200 [] 0
      (by decide) (by decide) (by decide)
  · exact claim9_wait_semantics.2.2.2 modelW 11 100 stA5 0 stA5 20 50 [] 0
      (by decide) (by decide) (by decide)

/-- Claim C10: starting the monitor while stopped, with a model but an
empty feed-topic name, performs no subscription yet still clears the
ledger, records the start time, and marks the monitor active; the
exposed monitored-topic name is then the empty string. -/
theorem claim10_start_empty_topic (st : MonitorState) (hasTf : Bool) (now : Nat)
    (hstopped : st.started = false) (hsub : st.subscribedTopic = none) :
    isActive (startStateMonitor true hasTf now "" st) = true ∧
    (startStateMonitor true hasTf now "" st).jointTime = [] ∧
    (startStateMonitor true hasTf now "" st).startTime = now ∧
    (startStateMonitor true hasTf now "" st).subscribedTopic = none ∧
    getMonitoredTopic (startStateMonitor true hasTf now "" st) = "" := by
  cases hasTf <;>
    simp [startStateMonitor, hstopped, hsub, isActive, getMonitoredTopic]

/-- Witness for C10: starting the quiescent stopped monitor with an
empty topic name at time 42. -/
theorem claim10_witness :
    isActive (startStateMonitor true false 42 "" baseState) = true ∧
    (startStateMonitor true false 42 "" baseState).jointTime = [] ∧
    (startStateMonitor true false 42 "" baseState).startTime = 42 ∧
    (startStateMonitor true false 42 "" baseState).subscribedTopic = none ∧
    getMonitoredTopic (startStateMonitor true false 42 "" baseState) = "" :=
  claim10_start_empty_topic baseState false 42 (by decide) (by decide)

end CSM
